import Mathlib

/-!
Shallow embedding of the subtitle_db_manager repository
(src/main.py, src/db_manager.py, src/subtitle_parser.py, src/file_walker.py).

Modelling conventions:
* SQLite REAL times are modelled as rationals (ℚ); all operations performed on
  them by the code are additions, subtractions and comparisons, which are exact.
* The `subtitles` table is modelled per media record as a list of cues in
  ascending `id` order (the order SQLite returns for `ORDER BY id ASC`; ids are
  assigned by the global autoincrement primary key on batch insert, see
  `insert_subtitles` in src/db_manager.py).  Queries with `ORDER BY id DESC`
  are modelled as `reverse` of that list.
* Python exceptions are modelled with `Except String`; a `try/except` block
  that catches and logs is modelled by returning the fallback value.
* The content of a subtitle file on disk is modelled abstractly by its parse
  outcome, since the actual parsing is done by the external libraries `pysrt`
  and `webvtt` (external collaborators per the spec): `SubContent.good cs`
  stands for a file those libraries decode to the cue list `cs`, and
  `SubContent.malformed` for a file on which they raise an exception.
* SQLite `LIKE '%q%'` is modelled as case-insensitive substring containment;
  queries are taken to be literal text (no `%`/`_` metacharacters), which is
  the only form the claims exercise.
-/

/-- A cue as produced by the subtitle decoders (src/subtitle_parser.py):
start and end in seconds, text with newlines collapsed. -/
structure ParsedCue where
  start_time : ℚ
  end_time : ℚ
  text : String
deriving DecidableEq, Repr

/-- A row of the `subtitles` table (src/db_manager.py, create_tables):
id (global autoincrement primary key), start, end, text.  The owning
`media_id` is implicit: cues are stored inside their `MediaRecord`. -/
structure Cue where
  id : Nat
  start_time : ℚ
  end_time : ℚ
  text : String
deriving DecidableEq, Repr

/-- A row of the `media_files` table together with its cues (the join used by
query_subtitles).  `cues` is the list of this record's subtitle rows in
ascending id order. -/
structure MediaRecord where
  id : Nat
  file_path : String
  phash : String
  modified_time : Int
  cues : List Cue
deriving DecidableEq, Repr

/-- The database file: both tables plus the autoincrement counters. -/
structure Store where
  media : List MediaRecord
  next_media_id : Nat
  next_cue_id : Nat
deriving DecidableEq, Repr

/-- A fresh database as produced by create_tables on a new file. -/
def emptyStore : Store := ⟨[], 1, 1⟩

/-- Parse outcome of a subtitle file, standing in for its on-disk bytes:
the external decoder either yields a cue list or raises. -/
inductive SubContent where
  | good (cues : List ParsedCue) : SubContent
  | malformed : SubContent
deriving DecidableEq, Repr

/-- One media/subtitle pair found by file_walker.find_media_and_subtitles,
together with the media file's modification time and the subtitle file's
content. -/
structure Pair where
  media_path : String
  subtitle_path : String
  mtime : Int
  content : SubContent
deriving DecidableEq, Repr

/-- Character-list prefix test (structural, so that concrete searches can be
checked by the kernel). -/
def char_begins : List Char → List Char → Bool
  | [], _ => true
  | _ :: _, [] => false
  | a :: as, b :: bs => a == b && char_begins as bs

/-- Character-list substring test: does the second list contain the first as
a contiguous run. -/
def char_sub_of (needle : List Char) : List Char → Bool
  | [] => needle.isEmpty
  | b :: bs => char_begins needle (b :: bs) || char_sub_of needle bs

/-- Character-list suffix test. -/
def char_ends (tail s : List Char) : Bool :=
  char_begins tail.reverse s.reverse

/-- Substring containment on strings (the semantics of SQLite
`LIKE '%needle%'` after case folding). -/
def str_contains_sub (hay needle : String) : Bool :=
  char_sub_of needle.data hay.data

/-- SQLite `text LIKE '%q%'` with default (case-insensitive ASCII) collation,
as issued by query_subtitles in src/main.py; Char.toLower folds exactly the
ASCII range, matching SQLite's LIKE. -/
def like_contains (text q : String) : Bool :=
  char_sub_of (q.data.map Char.toLower) (text.data.map Char.toLower)

/-- SQLite's memcmp ordering on TEXT values, modelled on the codepoint
sequence (equal to UTF-8 byte order on these inputs); the collation behind
ORDER BY T1.file_path. -/
def str_le : List Char → List Char → Bool
  | [], _ => true
  | _ :: _, [] => false
  | a :: as, b :: bs =>
    if a.val < b.val then true else if b.val < a.val then false else str_le as bs

/-- Two-digit zero padding, as in Python "{:02d}". -/
def pad2 (n : Nat) : String :=
  if n < 10 then "0" ++ toString n else toString n

/-- Three-digit zero padding (the millisecond part of "{:06.3f}"). -/
def pad3 (n : Nat) : String :=
  if n < 100 then (if n < 10 then "00" else "0") ++ toString n else toString n

/-- Python "{:.2f}" (src/main.py write_edl_file / write_text_file) on a
nonnegative rational that is an exact multiple of 1/100; exact on every
value the claims evaluate. -/
def format2core (q : ℚ) : String :=
  let n : Nat := (⌊q * 100⌋).toNat
  toString (n / 100) ++ "." ++ pad2 (n % 100)

/-- Python "{:.2f}" with the sign handled as Python renders it. -/
def format2 (q : ℚ) : String :=
  if q < 0 then "-" ++ format2core (-q) else format2core q

/-- format_timestamp from src/main.py: seconds to "HH:MM:SS.mmm"
("{hours:02d}:{minutes:02d}:{remaining_seconds:06.3f}"), for nonnegative
times that are exact multiples of 1/1000. -/
def format_timestamp (seconds : ℚ) : String :=
  let hours : Nat := (⌊seconds / 3600⌋).toNat
  let minutes : Nat := (⌊(seconds - 3600 * (⌊seconds / 3600⌋ : ℤ)) / 60⌋).toNat
  let ms : Nat := (⌊(seconds - 60 * (⌊seconds / 60⌋ : ℤ)) * 1000⌋).toNat
  pad2 hours ++ ":" ++ pad2 minutes ++ ":" ++ pad2 (ms / 1000) ++ "." ++ pad3 (ms % 1000)

/-- get_media_id from src/db_manager.py: point lookup of a media row by
path; `none` models the Python `None`. -/
def get_media_id (s : Store) (file_path : String) : Option Nat :=
  (s.media.find? (fun r => r.file_path = file_path)).map (fun r => r.id)

/-- insert_media_file from src/db_manager.py: INSERT into media_files.
The UNIQUE constraint on file_path raises sqlite3.IntegrityError on a
duplicate, which the function catches, logs and turns into `None` with the
store unchanged; otherwise the new row id is returned. -/
def insert_media_file (s : Store) (file_path phash : String) (modified_time : Int) :
    Option Nat × Store :=
  if s.media.any (fun r => r.file_path = file_path) then
    (none, s)
  else
    (some s.next_media_id,
      { s with
        media := s.media ++ [⟨s.next_media_id, file_path, phash, modified_time, []⟩],
        next_media_id := s.next_media_id + 1 })

/-- Ids handed out by the subtitles table's autoincrement primary key to a
batch of inserted rows: consecutive, starting from the counter. -/
def assign_ids : Nat → List ParsedCue → List Cue
  | _, [] => []
  | n, p :: rest => ⟨n, p.start_time, p.end_time, p.text⟩ :: assign_ids (n + 1) rest

/-- insert_subtitles from src/db_manager.py: bulk INSERT of a media file's
cues under its media id. -/
def insert_subtitles (s : Store) (media_id : Nat) (subs : List ParsedCue) : Store :=
  { s with
    media := s.media.map (fun r =>
      if r.id = media_id then { r with cues := r.cues ++ assign_ids s.next_cue_id subs } else r),
    next_cue_id := s.next_cue_id + subs.length }

/-- parse_srt from src/subtitle_parser.py: pysrt.open is called with no
surrounding try/except, so a file pysrt cannot parse raises out of the
function; a parseable file yields its cues. -/
def parse_srt : SubContent → Except String (List ParsedCue)
  | .good cs => .ok cs
  | .malformed => .error "pysrt parse error"

/-- parse_vtt from src/subtitle_parser.py: the whole body is wrapped in
try/except Exception, which logs and returns the empty list, so a malformed
file contributes zero cues without raising. -/
def parse_vtt : SubContent → List ParsedCue
  | .good cs => cs
  | .malformed => []

/-- parse_subtitle_file from src/subtitle_parser.py: dispatch on the file
extension; unknown extensions yield the empty list. -/
def parse_subtitle_file (file_path : String) (content : SubContent) :
    Except String (List ParsedCue) :=
  if char_ends ".srt".data file_path.data then parse_srt content
  else if char_ends ".vtt".data file_path.data then .ok (parse_vtt content)
  else .ok []

/-- The per-pair loop body of load_subtitles from src/main.py, threading the
store and the processed_count.  In non-reload mode a path already in the
database is skipped before any insert or decode; otherwise the media row is
inserted (a duplicate yields `none` and the pair is dropped), the subtitle
file is decoded — an uncaught decode exception aborts the whole loop — and
the cues are bulk-inserted. -/
def loadPairs (reload : Bool) : Store → List Pair → Nat → Except String (Store × Nat)
  | s, [], n => .ok (s, n)
  | s, p :: rest, n =>
    if ¬reload ∧ (get_media_id s p.media_path).isSome then
      loadPairs reload s rest n
    else
      match insert_media_file s p.media_path (toString p.mtime) p.mtime with
      | (none, s') => loadPairs reload s' rest n
      | (some media_id, s') =>
        match parse_subtitle_file p.subtitle_path p.content with
        | .error e => .error e
        | .ok subs => loadPairs reload (insert_subtitles s' media_id subs) rest (n + 1)

/-- load_subtitles from src/main.py: in reload mode the database file is
removed and recreated before the scan; the result is the final store and the
count of newly processed media files, or the uncaught exception that aborted
the scan. -/
def load_subtitles (s : Store) (pairs : List Pair) (reload : Bool) :
    Except String (Store × Nat) :=
  loadPairs reload (if reload then emptyStore else s) pairs 0

/-- One tuple appended to edl_entries in query_subtitles
(file_path, edl_start_time, edl_length). -/
structure EdlEntry where
  file_path : String
  start_time : ℚ
  length : ℚ
deriving DecidableEq, Repr

/-- One tuple appended to text_entries in query_subtitles
(file_path, start_time, end_time, text); the input rows of both
write_text_file and write_vtt_file. -/
structure TextEntry where
  file_path : String
  start_time : ℚ
  end_time : ℚ
  text : String
deriving DecidableEq, Repr

/-- convert_time_to_seconds from src/main.py. -/
def convert_time_to_seconds (start_time end_time : ℚ) : ℚ :=
  end_time - start_time

/-- The "before" query of query_subtitles (src/main.py): issued only when
before_lines > 0; SELECT the cues of the same media with id < the matched id,
ORDER BY id DESC LIMIT before_lines (modelled, on the id-ascending table
list, as reverse-then-take), then list(reversed(...)) back to ascending. -/
def before_subs (cues : List Cue) (sub_id : Nat) (before_lines : Nat) : List Cue :=
  if 0 < before_lines then
    (((cues.filter (fun c => c.id < sub_id)).reverse.take before_lines)).reverse
  else []

/-- The "after" query of query_subtitles (src/main.py): issued only when
after_lines > 0; SELECT the cues of the same media with id > the matched id,
ORDER BY id ASC LIMIT after_lines. -/
def after_subs (cues : List Cue) (sub_id : Nat) (after_lines : Nat) : List Cue :=
  if 0 < after_lines then
    (cues.filter (fun c => sub_id < c.id)).take after_lines
  else []

/-- The full context window of one match, in emission order: before-cues
ascending, the matched cue, after-cues ascending (the order in which
query_subtitles appends them to text_entries). -/
def matchWindow (cues : List Cue) (c : Cue) (before_lines after_lines : Nat) : List Cue :=
  before_subs cues c.id before_lines ++ c :: after_subs cues c.id after_lines

/-- The body of the per-row loop of query_subtitles (src/main.py lines
146-191) for one fetched row (the record it joined from and the matched
cue): rows whose file path contains a comma are skipped before anything is
collected; otherwise the EDL entry (start from the first before-cue if any,
else the match; end from the last after-cue if any, else the match; length =
end - start) and the window's text entries are produced. -/
def process_row (before_lines after_lines : Nat) (row : MediaRecord × Cue) :
    Option (EdlEntry × List TextEntry) :=
  let r := row.1
  let c := row.2
  if r.file_path.data.contains ',' then none
  else
    let bsubs := before_subs r.cues c.id before_lines
    let asubs := after_subs r.cues c.id after_lines
    let edl_start_time := ((bsubs.head?).map (fun x => x.start_time)).getD c.start_time
    let edl_end_time := ((asubs.getLast?).map (fun x => x.end_time)).getD c.end_time
    let edl_length := convert_time_to_seconds edl_start_time edl_end_time
    some (⟨r.file_path, edl_start_time, edl_length⟩,
      (bsubs ++ c :: asubs).map (fun x => ⟨r.file_path, x.start_time, x.end_time, x.text⟩))

/-- The initial SELECT of query_subtitles: join media_files and subtitles,
keep rows whose text matches LIKE '%query%', ORDER BY file_path then
start_time.  file_path is UNIQUE, so the global order is: records sorted by
path, and within a record its matching cues sorted by start_time. -/
def query_results (db : List MediaRecord) (query_str : String) :
    List (MediaRecord × Cue) :=
  ((db.insertionSort (fun r₁ r₂ => str_le r₁.file_path.data r₂.file_path.data = true)).map
    (fun r =>
      ((r.cues.filter (fun c => like_contains c.text query_str)).insertionSort
          (fun c₁ c₂ => c₁.start_time ≤ c₂.start_time)).map (fun c => (r, c)))).flatten

/-- The observable outcome of query_subtitles: either the "No results found"
notice with an early return (no artifact written), or the edl_entries and
text_entries lists from which the three artifacts are written. -/
inductive QueryOutput where
  | noResults : QueryOutput
  | files (edl_entries : List EdlEntry) (text_entries : List TextEntry) : QueryOutput
deriving DecidableEq, Repr

/-- query_subtitles from src/main.py: fetch all matches; on an empty result
set print the notice and return before any file is opened; otherwise fold
the per-row loop into edl_entries and text_entries (skipped rows contribute
nothing to either). -/
def query_subtitles (db : List MediaRecord) (query_str : String)
    (before_lines after_lines : Nat) : QueryOutput :=
  let results := query_results db query_str
  if results.isEmpty then .noResults
  else
    let processed := results.filterMap (process_row before_lines after_lines)
    .files (processed.map (fun x => x.1)) ((processed.map (fun x => x.2)).flatten)

/-- write_edl_file from src/main.py as the list of lines it writes: the
fixed "# mpv EDL v0" header, then one "path,start,length" line per entry
with both numbers formatted to two decimals. -/
def write_edl_lines (search_results : List EdlEntry) : List String :=
  "# mpv EDL v0" ::
    search_results.map (fun e =>
      e.file_path ++ "," ++ format2 e.start_time ++ "," ++ format2 e.length)

/-- One cue of the re-timed VTT artifact: its synthetic start and end on the
new timeline, and its text. -/
structure VttCue where
  vstart : ℚ
  vend : ℚ
  vtext : String
deriving DecidableEq, Repr

/-- The loop of write_vtt_file from src/main.py, threading current_time: for
each text entry, start_vtt = current_time + 0.5, end_vtt = start_vtt +
(end_time - start_time), and current_time becomes end_vtt + 0.5. -/
def write_vtt_timeline : ℚ → List TextEntry → List VttCue
  | _, [] => []
  | current_time, e :: rest =>
    let start_vtt := current_time + 1/2
    let end_vtt := start_vtt + (e.end_time - e.start_time)
    ⟨start_vtt, end_vtt, e.text⟩ :: write_vtt_timeline (end_vtt + 1/2) rest

/-- The full re-timed caption timeline: write_vtt_file starts its loop with
current_time = 0.0. -/
def vttTimeline (text_entries : List TextEntry) : List VttCue :=
  write_vtt_timeline 0 text_entries

/-- Modelled from the spec: the layout claim C3 describes, in which the
0.5-second gap is inserted before and after each WINDOW's block as a whole
and the cues inside one window's block are laid out sequentially
(back-to-back, keeping their durations).  This definition exists only to be
compared against the code's `write_vtt_timeline`; no such window grouping is
present in src/main.py, whose write_vtt_file sees a flat entry list. -/
def block_layout : ℚ → List TextEntry → List VttCue
  | _, [] => []
  | t, e :: rest =>
    ⟨t, t + (e.end_time - e.start_time), e.text⟩ ::
      block_layout (t + (e.end_time - e.start_time)) rest

/-- Modelled from the spec (continued): the whole-artifact layout under the
block reading, one 0.5-second gap before and after each window's block. -/
def vtt_spec_block_timeline : ℚ → List (List TextEntry) → List VttCue
  | _, [] => []
  | current_time, w :: ws =>
    let blockStart := current_time + 1/2
    let blockEnd := blockStart + (w.map (fun e => e.end_time - e.start_time)).sum
    block_layout blockStart w ++ vtt_spec_block_timeline (blockEnd + 1/2) ws

/-! Concrete instances used to exercise the definitions: the reference
library of the spec's end-to-end scenario (one media file with three cues
(0-2,"a"), (2-4,"b"), (4-6,"c")), plus small stores exercising comma paths,
malformed timestamps and decode failures. -/

/-- The three cues of the spec's end-to-end scenario. -/
def refCues : List Cue := [⟨1, 0, 2, "a"⟩, ⟨2, 2, 4, "b"⟩, ⟨3, 4, 6, "c"⟩]

/-- The scenario's single media record. -/
def refRecord : MediaRecord := ⟨1, "/media/show.mp4", "0", 0, refCues⟩

/-- The scenario's library. -/
def refDb : List MediaRecord := [refRecord]

/-- The text entries of the scenario's single window (before=1, after=1,
query "b"): all three cues in order. -/
def refEntries : List TextEntry :=
  [⟨"/media/show.mp4", 0, 2, "a"⟩, ⟨"/media/show.mp4", 2, 4, "b"⟩,
   ⟨"/media/show.mp4", 4, 6, "c"⟩]

/-- A media record whose path contains a comma and whose cue matches "x". -/
def commaRec : MediaRecord := ⟨2, "/media/a,b.mp4", "0", 0, [⟨10, 1, 3, "x one"⟩]⟩

/-- A comma-free media record whose cue matches "x". -/
def plainRec : MediaRecord := ⟨3, "/media/plain.mp4", "0", 0, [⟨11, 5, 7, "x two"⟩]⟩

/-- A library holding both a comma path and a plain path. -/
def commaDb : List MediaRecord := [commaRec, plainRec]

/-- A media record holding one cue with end < start (malformed source
timestamps). -/
def malRec : MediaRecord := ⟨4, "/media/mal.mp4", "0", 0, [⟨20, 5, 1, "weird"⟩]⟩

/-- Two media/subtitle pairs whose first subtitle is an .srt file pysrt
cannot parse and whose second is healthy. -/
def srtFailPairs : List Pair :=
  [⟨"/media/a.mp4", "/media/a.srt", 10, .malformed⟩,
   ⟨"/media/b.mp4", "/media/b.srt", 20, .good [⟨0, 2, "hello"⟩]⟩]

/-- The same scan with .vtt subtitles instead of .srt. -/
def vttFailPairs : List Pair :=
  [⟨"/media/a.mp4", "/media/a.vtt", 10, .malformed⟩,
   ⟨"/media/b.mp4", "/media/b.vtt", 20, .good [⟨0, 2, "hello"⟩]⟩]

/-- Text entries containing a cue whose end precedes its start by more than
one second (reachable from malformed subtitle data, whose length the spec
says is not clamped). -/
def badEntries : List TextEntry := [⟨"f", 0, -10, "x"⟩, ⟨"f", 0, 2, "y"⟩]

/-- A store already holding one indexed media path. -/
def oneFileStore : Store :=
  ⟨[⟨1, "/media/a.mp4", "10", 10, [⟨1, 0, 2, "hello"⟩]⟩], 2, 2⟩

/-- A rescan of the unchanged directory backing oneFileStore; the subtitle
content is marked malformed to show the skip happens before any decode. -/
def unchangedPairs : List Pair := [⟨"/media/a.mp4", "/media/a.srt", 10, .malformed⟩]

/-! Helper lemmas shared by the claim theorems. -/

/-- The guard in before_subs is redundant for the value: LIMIT 0 returns
no rows, exactly like skipping the query. -/
lemma before_subs_eq (cues : List Cue) (sub_id b : Nat) :
    before_subs cues sub_id b = ((cues.filter (fun c => c.id < sub_id)).reverse.take b).reverse := by
  rcases Nat.eq_zero_or_pos b with hb | hb
  · subst hb; simp [before_subs]
  · simp [before_subs, hb]

/-- The same for after_subs. -/
lemma after_subs_eq (cues : List Cue) (sub_id a : Nat) :
    after_subs cues sub_id a = (cues.filter (fun c => sub_id < c.id)).take a := by
  rcases Nat.eq_zero_or_pos a with ha | ha
  · subst ha; simp [after_subs]
  · simp [after_subs, ha]

/-- A row that survives process_row carries a comma-free path, on its EDL
entry and on every one of its text entries. -/
lemma process_row_comma_free {b a : Nat} {row : MediaRecord × Cue} {e : EdlEntry}
    {w : List TextEntry} (h : process_row b a row = some (e, w)) :
    e.file_path.data.contains ',' = false ∧ ∀ t ∈ w, t.file_path.data.contains ',' = false := by
  simp only [process_row] at h
  split at h
  · exact Option.noConfusion h
  · next hc =>
    simp only [Option.some.injEq, Prod.mk.injEq] at h
    obtain ⟨he, hw⟩ := h
    constructor
    · rw [← he]
      simpa using hc
    · intro t ht
      rw [← hw] at ht
      obtain ⟨x, -, hx⟩ := List.mem_map.mp ht
      rw [← hx]
      simpa using hc

/-- Durations survive re-timing: the loop of write_vtt_file maps each entry
to a cue of the same length. -/
lemma write_vtt_durations (cur : ℚ) (es : List TextEntry) :
    (write_vtt_timeline cur es).map (fun v => v.vend - v.vstart)
      = es.map (fun e => e.end_time - e.start_time) := by
  induction es generalizing cur with
  | nil => rfl
  | cons e rest ih =>
    simp only [write_vtt_timeline, List.map_cons, ih]
    congr 1
    ring

/-- The head of the re-timed block starts exactly half a second after the
running clock. -/
lemma write_vtt_head (cur : ℚ) (es : List TextEntry) :
    (write_vtt_timeline cur es).head?.map (fun v => v.vstart)
      = es.head?.map (fun _ => cur + 1/2) := by
  cases es <;> rfl

/-- Consecutive re-timed cues are separated by exactly one second of gap
(half a second after the previous cue plus half a second before the next). -/
lemma write_vtt_chain (cur : ℚ) (es : List TextEntry) :
    List.Chain' (fun u v => v.vstart = u.vend + 1) (write_vtt_timeline cur es) := by
  induction es generalizing cur with
  | nil => simp [write_vtt_timeline]
  | cons e rest ih =>
    rw [write_vtt_timeline]
    rw [List.chain'_cons']
    refine ⟨?_, ih _⟩
    intro y hy
    rw [Option.mem_def] at hy
    cases rest with
    | nil => simp [write_vtt_timeline] at hy
    | cons e' rest' =>
      rw [write_vtt_timeline] at hy
      simp only [List.head?_cons, Option.some.injEq] at hy
      rw [← hy]
      ring

/-- With well-formed cues (end at or after start) the re-timed starts never
decrease. -/
lemma write_vtt_mono (cur : ℚ) (es : List TextEntry)
    (hwf : ∀ e ∈ es, e.start_time ≤ e.end_time) :
    List.Chain' (fun u v => u.vstart ≤ v.vstart) (write_vtt_timeline cur es) := by
  induction es generalizing cur with
  | nil => simp [write_vtt_timeline]
  | cons e rest ih =>
    rw [write_vtt_timeline]
    rw [List.chain'_cons']
    refine ⟨?_, ih _ (fun x hx => hwf x (List.mem_cons_of_mem _ hx))⟩
    have he := hwf e (List.mem_cons_self e rest)
    intro y hy
    rw [Option.mem_def] at hy
    cases rest with
    | nil => simp [write_vtt_timeline] at hy
    | cons e' rest' =>
      rw [write_vtt_timeline] at hy
      simp only [List.head?_cons, Option.some.injEq] at hy
      rw [← hy]
      simp only
      linarith

/-- Membership in the fetched result rows implies the record is in the
library and the cue is one of its cues. -/
lemma query_results_mem {db : List MediaRecord} {q : String} {r : MediaRecord} {c : Cue}
    (h : (r, c) ∈ query_results db q) : r ∈ db ∧ c ∈ r.cues := by
  unfold query_results at h
  rw [List.mem_flatten] at h
  obtain ⟨l, hl, hmem⟩ := h
  rw [List.mem_map] at hl
  obtain ⟨r', hr', hleq⟩ := hl
  rw [← hleq, List.mem_map] at hmem
  obtain ⟨c', hc', hpair⟩ := hmem
  obtain ⟨hr, hc⟩ := Prod.mk.injEq .. ▸ hpair
  subst hr; subst hc
  rw [List.mem_insertionSort] at hr' hc'
  exact ⟨hr', List.mem_of_mem_filter hc'⟩

/-- C1: for every search match that survives the comma filter, the clip
start is the emitted window's first cue's start (the first before-cue's
start when before-cues exist, else the matched cue's start), the clip end is
the window's last cue's end (the last after-cue's end when after-cues exist,
else the matched cue's end), and the emitted length is end minus start
(start + length recovers the end; not clamped, negative on malformed data).
Concretely, query "b" with before=0 and after=0 on a cue spanning 2-4
seconds emits the playlist line "/media/show.mp4,2.00,2.00", and a cue with
end before start yields a negative length. -/
theorem clip_time_range_correct (b a : Nat) (row : MediaRecord × Cue)
    (e : EdlEntry) (w : List TextEntry)
    (h : process_row b a row = some (e, w)) :
    ((matchWindow row.1.cues row.2 b a).head?.map (fun x => x.start_time)
        = some e.start_time
      ∧ (matchWindow row.1.cues row.2 b a).getLast?.map (fun x => x.end_time)
        = some (e.start_time + e.length))
    ∧ (query_subtitles refDb "b" 0 0
          = .files [⟨"/media/show.mp4", 2, convert_time_to_seconds 2 4⟩]
              [⟨"/media/show.mp4", 2, 4, "b"⟩]
        ∧ write_edl_lines [⟨"/media/show.mp4", 2, convert_time_to_seconds 2 4⟩]
          = ["# mpv EDL v0", "/media/show.mp4,2.00,2.00"]
        ∧ process_row 0 0 (malRec, ⟨20, 5, 1, "weird"⟩)
          = some (⟨"/media/mal.mp4", 5, convert_time_to_seconds 5 1⟩,
              [⟨"/media/mal.mp4", 5, 1, "weird"⟩])
        ∧ convert_time_to_seconds 5 1 < 0) := by
  refine ⟨?_, by rfl,
    by norm_num [write_edl_lines, format2, format2core, pad2, convert_time_to_seconds]; rfl,
    by rfl, by norm_num [convert_time_to_seconds]⟩
  simp only [process_row] at h
  split at h
  · exact Option.noConfusion h
  · simp only [Option.some.injEq, Prod.mk.injEq] at h
    obtain ⟨he, -⟩ := h
    rw [← he]
    constructor
    · cases hb : before_subs row.1.cues row.2.id b with
      | nil => simp [matchWindow, hb]
      | cons x xs => simp [matchWindow, hb]
    · cases ha : after_subs row.1.cues row.2.id a with
      | nil =>
        simp [matchWindow, ha, convert_time_to_seconds]
      | cons y ys =>
        obtain ⟨z, hz⟩ : ∃ z, (y :: ys).getLast? = some z :=
          ⟨(y :: ys).getLast (List.cons_ne_nil y ys), List.getLast?_eq_getLast _ _⟩
        simp [matchWindow, ha, hz, convert_time_to_seconds]

/-- C1 witness: the claim's theorem instantiated on the reference library's
match for "b" with before=1, after=1. -/
theorem clip_time_range_correct_witness :
    (((matchWindow refRecord.cues ⟨2, 2, 4, "b"⟩ 1 1).head?.map (fun x => x.start_time)
        = some ((0 : ℚ))
      ∧ (matchWindow refRecord.cues ⟨2, 2, 4, "b"⟩ 1 1).getLast?.map (fun x => x.end_time)
        = some ((0 : ℚ) + convert_time_to_seconds 0 6))
      ∧ (query_subtitles refDb "b" 0 0
            = .files [⟨"/media/show.mp4", 2, convert_time_to_seconds 2 4⟩]
                [⟨"/media/show.mp4", 2, 4, "b"⟩]
          ∧ write_edl_lines [⟨"/media/show.mp4", 2, convert_time_to_seconds 2 4⟩]
            = ["# mpv EDL v0", "/media/show.mp4,2.00,2.00"]
          ∧ process_row 0 0 (malRec, ⟨20, 5, 1, "weird"⟩)
            = some (⟨"/media/mal.mp4", 5, convert_time_to_seconds 5 1⟩,
                [⟨"/media/mal.mp4", 5, 1, "weird"⟩])
          ∧ convert_time_to_seconds 5 1 < 0)) :=
  clip_time_range_correct 1 1 (refRecord, ⟨2, 2, 4, "b"⟩)
    ⟨"/media/show.mp4", 0, convert_time_to_seconds 0 6⟩
    [⟨"/media/show.mp4", 0, 2, "a"⟩, ⟨"/media/show.mp4", 2, 4, "b"⟩,
     ⟨"/media/show.mp4", 4, 6, "c"⟩] rfl

/-- C3 counterexample: the code's re-timed caption layout is not the block
layout the claim describes: on the reference 3-cue window the code separates
consecutive cues of the same window by a full second (0.5 after each cue
plus 0.5 before the next), placing the second cue at 3.5 s, while a layout
with the 0.5-second gap only before and after the window's block would place
it at 2.5 s. -/
theorem vtt_block_gap_counterexample :
    vttTimeline refEntries
      = [⟨1/2, 5/2, "a"⟩, ⟨7/2, 11/2, "b"⟩, ⟨13/2, 17/2, "c"⟩]
    ∧ vtt_spec_block_timeline 0 [refEntries]
      = [⟨1/2, 5/2, "a"⟩, ⟨5/2, 9/2, "b"⟩, ⟨9/2, 13/2, "c"⟩]
    ∧ vttTimeline refEntries ≠ vtt_spec_block_timeline 0 [refEntries] := by
  have h1 : vttTimeline refEntries
      = [⟨1/2, 5/2, "a"⟩, ⟨7/2, 11/2, "b"⟩, ⟨13/2, 17/2, "c"⟩] := by
    norm_num [vttTimeline, write_vtt_timeline, refEntries]
  have h2 : vtt_spec_block_timeline 0 [refEntries]
      = [⟨1/2, 5/2, "a"⟩, ⟨5/2, 9/2, "b"⟩, ⟨9/2, 13/2, "c"⟩] := by
    norm_num [vtt_spec_block_timeline, block_layout, refEntries]
  refine ⟨h1, h2, ?_⟩
  rw [h1, h2]
  intro hcontra
  norm_num at hcontra

/-- C3 (amended): the re-timed caption artifact lays all cues on one
synthetic timeline starting at 0, with the 0.5-second gap inserted before
and after every cue individually (write_vtt_file sees a flat entry list
without window grouping), so the first cue starts at 0.50, every later cue
starts exactly one second after the previous cue's end, and every cue keeps
its original duration while its original absolute time is discarded; on the
reference 3-cue window of 2-second cues the cues sit at 0.5-2.5, 3.5-5.5
and 6.5-8.5, with timestamps rendered as HH:MM:SS.mmm. -/
theorem vtt_retimed_per_cue_layout (text_entries : List TextEntry) :
    ((vttTimeline text_entries).map (fun v => v.vend - v.vstart)
        = text_entries.map (fun e => e.end_time - e.start_time)
      ∧ (vttTimeline text_entries).head?.map (fun v => v.vstart)
        = text_entries.head?.map (fun _ => (1 : ℚ)/2)
      ∧ List.Chain' (fun u v => v.vstart = u.vend + 1) (vttTimeline text_entries))
    ∧ (vttTimeline refEntries
        = [⟨1/2, 5/2, "a"⟩, ⟨7/2, 11/2, "b"⟩, ⟨13/2, 17/2, "c"⟩]
      ∧ format_timestamp (1/2) = "00:00:00.500"
      ∧ format_timestamp (5/2) = "00:00:02.500") := by
  refine ⟨⟨write_vtt_durations 0 _, by simpa using write_vtt_head 0 text_entries,
      write_vtt_chain 0 _⟩,
    by norm_num [vttTimeline, write_vtt_timeline, refEntries], ?_, ?_⟩
  · norm_num [format_timestamp, pad2, pad3]; rfl
  · norm_num [format_timestamp, pad2, pad3]; rfl

/-- C4 counterexample: re-timed caption starts are not monotone for every
input sequence: a cue whose end precedes its start by more than one second
(malformed source data, which the pipeline does not clamp) pulls the
following cue's synthetic start before its own. -/
theorem vtt_monotonicity_counterexample :
    ¬ List.Chain' (fun u v => u.vstart ≤ v.vstart) (vttTimeline badEntries) := by
  norm_num [vttTimeline, write_vtt_timeline, badEntries, List.chain'_cons]

/-- C4 (amended): every rendered cue's duration equals its original end
minus start, unconditionally; and for every input result sequence whose
cues satisfy the data-model invariant end >= start, the rendered start
times are monotonically non-decreasing across the whole artifact. -/
theorem vtt_durations_and_monotone (text_entries : List TextEntry) :
    ((vttTimeline text_entries).map (fun v => v.vend - v.vstart)
        = text_entries.map (fun e => e.end_time - e.start_time))
    ∧ ((∀ e ∈ text_entries, e.start_time ≤ e.end_time) →
        List.Chain' (fun u v => u.vstart ≤ v.vstart) (vttTimeline text_entries)) :=
  ⟨write_vtt_durations 0 _, fun hwf => write_vtt_mono 0 _ hwf⟩

/-- C4 witness: the amended theorem instantiated on the reference window's
entries, whose cues all satisfy end >= start. -/
theorem vtt_durations_and_monotone_witness :
    ((vttTimeline refEntries).map (fun v => v.vend - v.vstart)
        = refEntries.map (fun e => e.end_time - e.start_time))
    ∧ List.Chain' (fun u v => u.vstart ≤ v.vstart) (vttTimeline refEntries) :=
  ⟨(vtt_durations_and_monotone refEntries).1,
   (vtt_durations_and_monotone refEntries).2 (by decide)⟩

/-- C5 (code bug): parse_srt calls pysrt.open with no exception handling and
load_subtitles does not guard the decode call either, so a single malformed
.srt file aborts the scan of every remaining pair (here the healthy second
pair is never indexed), contradicting the spec's requirement that a decode
failure be logged per-file and contribute zero cues without stopping the
scan; the .vtt path shows the intended behavior: its decoder catches the
failure and the same scan completes with the remaining pair indexed. -/
theorem srt_decode_failure_aborts_scan :
    load_subtitles emptyStore srtFailPairs false = .error "pysrt parse error"
    ∧ load_subtitles emptyStore vttFailPairs false
      = .ok (⟨[⟨1, "/media/a.mp4", "10", 10, []⟩,
               ⟨2, "/media/b.mp4", "20", 20, [⟨1, 0, 2, "hello"⟩]⟩], 3, 2⟩, 2)
    ∧ parse_vtt .malformed = [] :=
  ⟨rfl, rfl, rfl⟩

/-- C6: whenever a search writes artifacts, the playlist begins with the
fixed "# mpv EDL v0" header line, and no emitted playlist entry's file-path
field contains a comma, because every row whose record path contains a comma
is skipped before collection. -/
theorem playlist_header_and_no_comma (db : List MediaRecord) (q : String)
    (b a : Nat) (edl : List EdlEntry) (textE : List TextEntry)
    (h : query_subtitles db q b a = .files edl textE) :
    (write_edl_lines edl).head? = some "# mpv EDL v0"
    ∧ ∀ e ∈ edl, e.file_path.data.contains ',' = false := by
  refine ⟨rfl, ?_⟩
  simp only [query_subtitles] at h
  split at h
  · exact QueryOutput.noConfusion h
  · injection h with h1 h2
    intro e he
    rw [← h1] at he
    obtain ⟨x, hx, hxe⟩ := List.mem_map.mp he
    obtain ⟨row, -, hrow⟩ := List.mem_filterMap.mp hx
    exact hxe ▸ (process_row_comma_free hrow).1

/-- C6 witness: the theorem instantiated on a library containing one record
with a comma in its path and one without; only the latter is emitted. -/
theorem playlist_header_and_no_comma_witness :
    (write_edl_lines [⟨"/media/plain.mp4", 5, convert_time_to_seconds 5 7⟩]).head?
        = some "# mpv EDL v0"
    ∧ ∀ e ∈ [(⟨"/media/plain.mp4", 5, convert_time_to_seconds 5 7⟩ : EdlEntry)],
        e.file_path.data.contains ',' = false :=
  playlist_header_and_no_comma commaDb "x" 1 1
    [⟨"/media/plain.mp4", 5, convert_time_to_seconds 5 7⟩]
    [⟨"/media/plain.mp4", 5, 7, "x two"⟩] rfl

/-- C7: a query matching zero cues yields the "No results found" notice and
an early return: no artifact list is produced and nothing is raised. -/
theorem no_results_no_artifacts (db : List MediaRecord) (q : String)
    (b a : Nat) (h : query_results db q = []) :
    query_subtitles db q b a = .noResults := by
  simp [query_subtitles, h]

/-- C7 witness: the reference library contains no cue matching "zzz". -/
theorem no_results_no_artifacts_witness :
    query_subtitles refDb "zzz" 1 1 = .noResults :=
  no_results_no_artifacts refDb "zzz" 1 1 (by decide)

/-- C8: inserting a media file whose path is already present is a no-op, not
an error: the insert returns None with the store unchanged, and the indexing
loop then drops the pair without decoding or inserting any cues, in both
incremental and reload mode. -/
theorem duplicate_insert_is_noop (s : Store) (p : Pair) (rest : List Pair)
    (n : Nat) (reload : Bool)
    (h : ∃ r ∈ s.media, r.file_path = p.media_path) :
    (insert_media_file s p.media_path (toString p.mtime) p.mtime).1 = none
    ∧ (insert_media_file s p.media_path (toString p.mtime) p.mtime).2 = s
    ∧ loadPairs reload s (p :: rest) n = loadPairs reload s rest n := by
  obtain ⟨r, hr, hre⟩ := h
  have hany : s.media.any (fun x => x.file_path = p.media_path) = true :=
    List.any_eq_true.mpr ⟨r, hr, by simp [hre]⟩
  have hins : insert_media_file s p.media_path (toString p.mtime) p.mtime = (none, s) := by
    simp [insert_media_file, hany]
  refine ⟨by rw [hins], by rw [hins], ?_⟩
  cases reload with
  | true => simp [loadPairs, hins]
  | false =>
    have hsome : (get_media_id s p.media_path).isSome = true := by
      simp [get_media_id]
      exact ⟨r, hr, hre⟩
    simp [loadPairs, hsome]

/-- C8 witness: the theorem instantiated on a store already holding the
path being re-inserted. -/
theorem duplicate_insert_is_noop_witness :
    (insert_media_file oneFileStore "/media/a.mp4" (toString (10 : Int)) 10).1 = none
    ∧ (insert_media_file oneFileStore "/media/a.mp4" (toString (10 : Int)) 10).2 = oneFileStore
    ∧ loadPairs false oneFileStore [⟨"/media/a.mp4", "/media/a.srt", 10, .malformed⟩] 0
      = loadPairs false oneFileStore [] 0 :=
  duplicate_insert_is_noop oneFileStore ⟨"/media/a.mp4", "/media/a.srt", 10, .malformed⟩
    [] 0 false (by decide)

/-- The incremental skip loop: if every pair's media path is already in the
store, the per-pair loop leaves the store untouched and counts nothing. -/
lemma loadPairs_skip_all (s : Store) (pairs : List Pair) (n : Nat)
    (h : ∀ p ∈ pairs, (get_media_id s p.media_path).isSome = true) :
    loadPairs false s pairs n = .ok (s, n) := by
  induction pairs with
  | nil => rfl
  | cons p rest ih =>
    have hp := h p (List.mem_cons_self p rest)
    simp only [loadPairs]
    rw [if_pos (by simp [hp])]
    exact ih (fun x hx => h x (List.mem_cons_of_mem _ hx))

/-- C9: re-running indexing in incremental (non-reload) mode over pairs
whose media paths are all already indexed inserts zero new MediaRecords:
each pair is skipped before any insert or decode, and the store is returned
unchanged with a processed count of zero. -/
theorem incremental_rescan_unchanged (s : Store) (pairs : List Pair)
    (h : ∀ p ∈ pairs, (get_media_id s p.media_path).isSome = true) :
    load_subtitles s pairs false = .ok (s, 0) :=
  loadPairs_skip_all s pairs 0 h

/-- C9 witness: rescanning the unchanged directory behind oneFileStore, with
the subtitle content deliberately malformed to show no decode happens. -/
theorem incremental_rescan_unchanged_witness :
    load_subtitles oneFileStore unchangedPairs false = .ok (oneFileStore, 0) :=
  incremental_rescan_unchanged oneFileStore unchangedPairs (by decide)

/-- C10 (implicit): a match whose record path contains a comma is dropped
before any per-window collection, so it contributes nothing to the
transcript entries nor to the re-timed caption track (both are built from
the same text_entries list): every emitted text entry's path is comma-free. -/
theorem comma_paths_excluded_from_all_artifacts (db : List MediaRecord) (q : String)
    (b a : Nat) (edl : List EdlEntry) (textE : List TextEntry)
    (h : query_subtitles db q b a = .files edl textE) :
    ∀ t ∈ textE, t.file_path.data.contains ',' = false := by
  simp only [query_subtitles] at h
  split at h
  · exact QueryOutput.noConfusion h
  · injection h with h1 h2
    intro t ht
    rw [← h2] at ht
    obtain ⟨l, hl, htl⟩ := List.mem_flatten.mp ht
    obtain ⟨x, hx, hlx⟩ := List.mem_map.mp hl
    obtain ⟨row, -, hrow⟩ := List.mem_filterMap.mp hx
    exact (process_row_comma_free hrow).2 t (hlx ▸ htl)

/-- C10 witness: on the comma/plain library only the comma-free record's
window reaches the transcript and caption inputs. -/
theorem comma_paths_excluded_witness :
    (⟨"/media/plain.mp4", 5, 7, "x two"⟩ : TextEntry).file_path.data.contains ',' = false :=
  comma_paths_excluded_from_all_artifacts commaDb "x" 1 1
    [⟨"/media/plain.mp4", 5, convert_time_to_seconds 5 7⟩]
    [⟨"/media/plain.mp4", 5, 7, "x two"⟩] rfl
    ⟨"/media/plain.mp4", 5, 7, "x two"⟩ (List.Mem.head _)

/-- C2: every window emitted for a match is a contiguous slice (infix) of
the matched record's id-ordered cue sequence — the before-cues are the
immediately preceding cues in ascending id order and the after-cues the
immediately following ones — its size never exceeds before + 1 + after
cues, and it is smaller only when the match sits near the record's sequence
boundary (fewer than `before` cues precede it or fewer than `after` cues
follow it in that record). -/
theorem window_bounded_and_contiguous (db : List MediaRecord) (q : String)
    (b a : Nat) (r : MediaRecord) (c : Cue)
    (hrow : (r, c) ∈ query_results db q)
    (hids : ∀ m ∈ db, m.cues.Pairwise (fun x y => x.id < y.id)) :
    (matchWindow r.cues c b a).length ≤ b + 1 + a
    ∧ matchWindow r.cues c b a <:+: r.cues
    ∧ ((matchWindow r.cues c b a).length < b + 1 + a →
        (r.cues.filter (fun x => x.id < c.id)).length < b
        ∨ (r.cues.filter (fun x => c.id < x.id)).length < a) := by
  obtain ⟨hr, hc⟩ := query_results_mem hrow
  have hpw := hids r hr
  obtain ⟨A, B, hAB⟩ := List.append_of_mem hc
  rw [hAB, List.pairwise_append] at hpw
  obtain ⟨-, hpcB, hcross⟩ := hpw
  rw [List.pairwise_cons] at hpcB
  have hB : ∀ y ∈ B, c.id < y.id := hpcB.1
  have hA : ∀ x ∈ A, x.id < c.id := fun x hx => hcross x hx c (List.mem_cons_self c B)
  have hfA : r.cues.filter (fun x => x.id < c.id) = A := by
    rw [hAB, List.filter_append, List.filter_cons, if_neg (by simp),
      List.filter_eq_self.mpr (fun x hx => by simpa using hA x hx),
      List.filter_eq_nil_iff.mpr (fun y hy => by simpa using Nat.lt_asymm (hB y hy)),
      List.append_nil]
  have hfB : r.cues.filter (fun x => c.id < x.id) = B := by
    rw [hAB, List.filter_append, List.filter_cons, if_neg (by simp),
      List.filter_eq_nil_iff.mpr (fun x hx => by simpa using Nat.lt_asymm (hA x hx)),
      List.filter_eq_self.mpr (fun y hy => by simpa using hB y hy),
      List.nil_append]
  have hbs : before_subs r.cues c.id b = (A.reverse.take b).reverse := by
    rw [before_subs_eq, hfA]
  have has : after_subs r.cues c.id a = B.take a := by
    rw [after_subs_eq, hfB]
  have hsufA : (A.reverse.take b).reverse <:+ A := by
    have h1 := List.take_prefix b A.reverse
    have h2 := List.reverse_suffix.mpr h1
    simpa using h2
  obtain ⟨s, hs⟩ := hsufA
  obtain ⟨t, ht⟩ := List.take_prefix a B
  have hlb : (before_subs r.cues c.id b).length = min b A.length := by
    rw [hbs]; simp
  have hla : (after_subs r.cues c.id a).length = min a B.length := by
    rw [has]; simp
  have hlen : (matchWindow r.cues c b a).length
      = (before_subs r.cues c.id b).length + ((after_subs r.cues c.id a).length + 1) := by
    simp [matchWindow]
  refine ⟨?_, ?_, ?_⟩
  · rw [hlen, hlb, hla]; omega
  · refine ⟨s, t, ?_⟩
    rw [matchWindow, hbs, has, hAB]
    conv_rhs => rw [← hs, ← ht]
    simp [List.append_assoc]
  · intro hlt
    rw [hfA, hfB]
    rw [hlen, hlb, hla] at hlt
    omega

/-- C2 witness: the theorem instantiated on the reference library's match
for "b" with before=1, after=1, whose window is all three cues. -/
theorem window_bounded_and_contiguous_witness :
    (matchWindow refRecord.cues ⟨2, 2, 4, "b"⟩ 1 1).length ≤ 1 + 1 + 1
    ∧ matchWindow refRecord.cues ⟨2, 2, 4, "b"⟩ 1 1 <:+: refRecord.cues
    ∧ ((matchWindow refRecord.cues ⟨2, 2, 4, "b"⟩ 1 1).length < 1 + 1 + 1 →
        (refRecord.cues.filter (fun x => x.id < (⟨2, 2, 4, "b"⟩ : Cue).id)).length < 1
        ∨ (refRecord.cues.filter (fun x => (⟨2, 2, 4, "b"⟩ : Cue).id < x.id)).length < 1) :=
  window_bounded_and_contiguous refDb "b" 1 1 refRecord ⟨2, 2, 4, "b"⟩
    (by decide) (by decide)
